import Mathlib

/-!
Shallow embedding of the calculator session logic in
`src/src/Calculator.jsx` (ProjectGrantwood/calc).

The stateful React component is modelled as an explicit state record
`CalcState` together with pure transition functions, one per event
handler in the source.  The external expression evaluator (`math.evaluate`
composed with `.toString()`) is a black box; it is modelled as an oracle
parameter `evalFn : String → Except String String`, where `Except.error m`
stands for a thrown exception with message `m` and `Except.ok v` for a
successful evaluation whose stringified result is `v`.

JavaScript array semantics that matter here are modelled explicitly:
an out-of-range index read (`result[1]` on a one-element array) yields
`undefined`, and `Array.prototype.join` renders `undefined` as the empty
string.  Tokens are therefore `JsVal` (a string or `undefined`) rather
than bare strings.
-/

/-- A JavaScript value as it can occur in the token arrays: either a
string or the `undefined` value (produced by an out-of-range index). -/
inductive JsVal where
  | undef : JsVal
  | str : String → JsVal
deriving DecidableEq, Repr

/-- How `Array.prototype.join("")` renders one element: `undefined`
joins as the empty string. -/
def JsVal.joinStr : JsVal → String
  | JsVal.undef => ""
  | JsVal.str s => s

/-- The component state: the `expressionAndResult` object
(`expression`, `result`, `needsReset`) together with the two separate
`useState` cells `resultIsError` and `previousNonErrorResult`
(`null` modelled as `none`). -/
structure CalcState where
  expression : List JsVal
  result : List JsVal
  needsReset : Bool
  resultIsError : Bool
  previousNonErrorResult : Option String
deriving DecidableEq, Repr

/-- The initial component state: `useState({expression: [], result: [],
needsReset: false})`, `useState(false)`, `useState(null)`. -/
def initState : CalcState :=
  { expression := [], result := [], needsReset := false,
    resultIsError := false, previousNonErrorResult := none }

/-- `parseExpression`: `expression.join("")`. -/
def parseExpression (expression : List JsVal) : String :=
  String.join (expression.map JsVal.joinStr)

/-- `resetExpression(newExpression)`: replaces the expression, empties the
result, clears `needsReset` and `resultIsError`. -/
def resetExpression (s : CalcState) (newExpression : List JsVal) : CalcState :=
  { s with expression := newExpression, result := [], needsReset := false,
           resultIsError := false }

/-- `handleNumberInput(num)`. -/
def handleNumberInput (s : CalcState) (num : String) : CalcState :=
  if s.needsReset then
    resetExpression s [JsVal.str num]
  else
    { s with expression := s.expression ++ [JsVal.str num], result := [],
             needsReset := false }

/-- `handleOperationInput(op)`: in the `needsReset` case the resumed left
operand is `previousNonErrorResult` when non-null, otherwise
`expressionAndResult.result[1]`, which is `undefined` when `result` has
fewer than two elements. -/
def handleOperationInput (s : CalcState) (op : String) : CalcState :=
  if s.needsReset then
    resetExpression s
      [(match s.previousNonErrorResult with
        | some r => JsVal.str r
        | none => s.result.getD 1 JsVal.undef), JsVal.str op]
  else
    { s with expression := s.expression ++ [JsVal.str op], result := [],
             needsReset := false }

/-- `clearInput()`. -/
def clearInput (s : CalcState) : CalcState :=
  { s with expression := [], result := [], needsReset := false,
           resultIsError := false }

/-- `backspace()`: `expression.slice(0, -1)`; note that `resultIsError`
is not touched. -/
def backspace (s : CalcState) : CalcState :=
  { s with expression := s.expression.dropLast, result := [],
           needsReset := false }

/-- The two `replaceAll` calls: `/×/g ↦ "*"` then `/÷/g ↦ "/"`.  Each
pattern is a single character, so each pass is a character map. -/
def translateGlyphs (s : String) : String :=
  let s1 := String.mk (s.data.map (fun c => if c = '×' then '*' else c))
  String.mk (s1.data.map (fun c => if c = '÷' then '/' else c))

/-- The regex test `resultOfComputation.match(/[A-Za-z]+/g)`: truthy iff
some character is an ASCII letter. -/
def containsAlpha (s : String) : Bool :=
  s.data.any Char.isAlpha

/-- `computeExpression()`: assemble the expression string, translate the
display glyphs, invoke the evaluator; on a thrown error store the
single-element error payload, set the error flag and `needsReset`; on
success store `["=", resultDisplay]` (wrapping alphabetic results in
`\text{...}` markup) and record the raw result in
`previousNonErrorResult`. -/
def computeExpression (evalFn : String → Except String String)
    (s : CalcState) : CalcState :=
  let expressionParsed := translateGlyphs (parseExpression s.expression)
  match evalFn expressionParsed with
  | Except.error msg =>
      { s with resultIsError := true,
               result := [JsVal.str ("Error: " ++ msg)],
               needsReset := true }
  | Except.ok resultOfComputation =>
      let resultDisplay :=
        if containsAlpha resultOfComputation then
          "\\text\x7b" ++ resultOfComputation ++ "\x7d"
        else resultOfComputation
      { s with result := [JsVal.str "=", JsVal.str resultDisplay],
               needsReset := true,
               previousNonErrorResult := some resultOfComputation }

/-- One user-visible session operation. -/
inductive CalcAction where
  | num : String → CalcAction
  | op : String → CalcAction
  | back : CalcAction
  | clear : CalcAction
  | compute : CalcAction
deriving DecidableEq, Repr

/-- Dispatch one action to the corresponding handler. -/
def step (evalFn : String → Except String String) (s : CalcState) :
    CalcAction → CalcState
  | CalcAction.num n => handleNumberInput s n
  | CalcAction.op o => handleOperationInput s o
  | CalcAction.back => backspace s
  | CalcAction.clear => clearInput s
  | CalcAction.compute => computeExpression evalFn s

/-- Run a sequence of actions from the initial state. -/
def run (evalFn : String → Except String String)
    (acts : List CalcAction) : CalcState :=
  acts.foldl (step evalFn) initState

/-- The keypad wiring (the `InputButton`/`ActionButton` elements of the
`Calculator` JSX): which session operation each button invokes.  The
parenthesis buttons are wired to `handleOperationInput`. -/
def buttonAction (char : String) : Option CalcAction :=
  if char = "(" ∨ char = ")" ∨ char = "+" ∨ char = "-" ∨ char = "×" ∨
     char = "÷" then
    some (CalcAction.op char)
  else if char = "0" ∨ char = "1" ∨ char = "2" ∨ char = "3" ∨ char = "4" ∨
          char = "5" ∨ char = "6" ∨ char = "7" ∨ char = "8" ∨ char = "9" ∨
          char = "." then
    some (CalcAction.num char)
  else if char = "⌫" then some CalcAction.back
  else if char = "AC" then some CalcAction.clear
  else if char = "=" then some CalcAction.compute
  else none

/-- The `keyDownHandler`: a regex `key.match(/.../g)` is truthy iff some
character of `key` is in the character class.  With shift held, `(` and
`)` are routed to `handleNumberInput`; `*` and `+` to
`handleOperationInput` (with `*` mapped to the glyph `×`). -/
def keyAction (shiftKey : Bool) (key : String) : Option CalcAction :=
  if shiftKey then
    if key.data.any (fun c => c == '/' || c == '(' || c == ')') then
      some (CalcAction.num key)
    else if key.data.any (fun c => c == '/' || c == '*' || c == '+') then
      if key = "*" then some (CalcAction.op "×") else some (CalcAction.op key)
    else none
  else if key.data.any
      (fun c => c.isDigit || c == '.' || c == '/' || c == '-') then
    if key = "/" then some (CalcAction.op "÷")
    else if key = "-" then some (CalcAction.op "-")
    else some (CalcAction.num key)
  else if key = "Backspace" ∨ key = "Delete" then some CalcAction.back
  else if key = "=" then some CalcAction.compute
  else none

/-! Helper oracles and auxiliary definitions used in the theorems. -/

/-- An evaluator oracle that always throws, with message `boom`. -/
def evalBoom : String → Except String String :=
  fun _ => Except.error "boom"

/-- An evaluator oracle that succeeds with `1` on the input `1` and
throws otherwise. -/
def evalOk1 : String → Except String String :=
  fun s => if s = "1" then Except.ok "1" else Except.error "boom"

/-- An evaluator oracle that maps `2+2` to `4` and throws otherwise. -/
def evalTwoPlusTwo : String → Except String String :=
  fun s => if s = "2+2" then Except.ok "4" else Except.error "x"

/-- The single-character glyph translation applied before evaluation. -/
def trChar (c : Char) : Char :=
  if c = '×' then '*' else if c = '÷' then '/' else c

/-- Whether an action is a digit/point or operator append. -/
def isAppend : CalcAction → Bool
  | CalcAction.num _ => true
  | CalcAction.op _ => true
  | _ => false

/-- The literal input string carried by an append action. -/
def inputStr : CalcAction → String
  | CalcAction.num s => s
  | CalcAction.op s => s
  | _ => ""

/-- The shape the spec claims for `resultTokens`: empty, or
`["=", display]`, or the two-element `["Error: ", message]` with the
literal first element `"Error: "`.  Stated from the spec's words, to be
compared against the code. -/
def specResultShape (l : List JsVal) : Prop :=
  l = [] ∨ (∃ d, l = [JsVal.str "=", d]) ∨
    (∃ m : String, l = [JsVal.str "Error: ", JsVal.str m])

/-- The concrete session state reached by entering `1`, `+` and pressing
`=` under an evaluator that throws `boom`: an error result with no prior
successful evaluation. -/
def errState : CalcState :=
  { expression := [JsVal.str "1", JsVal.str "+"],
    result := [JsVal.str "Error: boom"],
    needsReset := true, resultIsError := true,
    previousNonErrorResult := none }

/-- The concrete session state reached by entering `2`, `+`, `2` and
pressing `=` under an evaluator that returns `4`. -/
def successState : CalcState :=
  { expression := [JsVal.str "2", JsVal.str "+", JsVal.str "2"],
    result := [JsVal.str "=", JsVal.str "4"],
    needsReset := true, resultIsError := false,
    previousNonErrorResult := some "4" }

/-! Shared helper lemmas. -/

/-- Any single step establishes the `needsReset` / `result` link: both
evaluate branches set `needsReset` with a non-empty result, every other
handler clears both. -/
lemma step_needsReset_iff (evalFn : String → Except String String)
    (s : CalcState) (a : CalcAction) :
    ((step evalFn s a).needsReset = true ↔ (step evalFn s a).result ≠ []) := by
  cases a with
  | num n =>
      by_cases h : s.needsReset <;>
        simp [step, handleNumberInput, resetExpression, h]
  | op o =>
      by_cases h : s.needsReset <;>
        simp [step, handleOperationInput, resetExpression, h]
  | back => simp [step, backspace]
  | clear => simp [step, clearInput]
  | compute =>
      simp only [step, computeExpression]
      cases evalFn (translateGlyphs (parseExpression s.expression)) <;> simp

/-- Any single step leaves `result` in one of the three code shapes. -/
lemma step_result_shape (evalFn : String → Except String String)
    (s : CalcState) (a : CalcAction) :
    (step evalFn s a).result = [] ∨
      (∃ d, (step evalFn s a).result = [JsVal.str "=", JsVal.str d]) ∨
      (∃ m : String,
        (step evalFn s a).result = [JsVal.str ("Error: " ++ m)]) := by
  cases a with
  | num n =>
      by_cases h : s.needsReset <;>
        simp [step, handleNumberInput, resetExpression, h]
  | op o =>
      by_cases h : s.needsReset <;>
        simp [step, handleOperationInput, resetExpression, h]
  | back => simp [step, backspace]
  | clear => simp [step, clearInput]
  | compute =>
      simp only [step, computeExpression]
      cases evalFn (translateGlyphs (parseExpression s.expression)) with
      | error msg => exact Or.inr (Or.inr ⟨msg, rfl⟩)
      | ok v => exact Or.inr (Or.inl ⟨_, rfl⟩)

/-- A property holding initially and re-established by every step holds
in every reachable state. -/
lemma run_preserve (P : CalcState → Prop)
    (evalFn : String → Except String String)
    (hstep : ∀ s a, P (step evalFn s a)) (hinit : P initState)
    (acts : List CalcAction) : P (run evalFn acts) := by
  have aux : ∀ (l : List CalcAction) (s : CalcState), P s →
      P (l.foldl (step evalFn) s) := by
    intro l
    induction l with
    | nil => intro s hs; exact hs
    | cons a l ih => intro s _; exact ih (step evalFn s a) (hstep s a)
  exact aux acts initState hinit

/-- C1: the code violates the claimed `isError` invariant.  Entering
`1`, `+`, evaluating (the evaluator throws), then Backspace leaves
`resultIsError = true` with `resultTokens` empty; continuing with a now
successful Evaluate still leaves `resultIsError = true` next to a
success payload.  `backspace` and the success branch of
`computeExpression` never reset the flag. -/
theorem isError_desync_after_backspace :
    (run evalBoom [CalcAction.num "1", CalcAction.op "+",
      CalcAction.compute, CalcAction.back]).resultIsError = true ∧
    (run evalBoom [CalcAction.num "1", CalcAction.op "+",
      CalcAction.compute, CalcAction.back]).result = [] ∧
    (run evalOk1 [CalcAction.num "1", CalcAction.op "+",
      CalcAction.compute, CalcAction.back,
      CalcAction.compute]).resultIsError = true ∧
    (run evalOk1 [CalcAction.num "1", CalcAction.op "+",
      CalcAction.compute, CalcAction.back, CalcAction.compute]).result =
      [JsVal.str "=", JsVal.str "1"] := by
  refine ⟨rfl, rfl, rfl, rfl⟩

/-- C2: when the evaluator throws with message `msg` on the assembled,
glyph-translated expression string, Evaluate stores the non-empty error
payload carrying `msg`, sets the error flag and `needsReset`, and leaves
the composed `tokens` exactly as they were. -/
theorem evaluate_failure_state (evalFn : String → Except String String)
    (s : CalcState) (msg : String)
    (h : evalFn (translateGlyphs (parseExpression s.expression)) =
      Except.error msg) :
    (step evalFn s CalcAction.compute).result =
      [JsVal.str ("Error: " ++ msg)] ∧
    (step evalFn s CalcAction.compute).result ≠ [] ∧
    (step evalFn s CalcAction.compute).resultIsError = true ∧
    (step evalFn s CalcAction.compute).needsReset = true ∧
    (step evalFn s CalcAction.compute).expression = s.expression := by
  simp [step, computeExpression, h]

/-- C2 witness: the failure theorem applied to the initial state under
the always-throwing oracle. -/
theorem evaluate_failure_state_witness :
    evalBoom (translateGlyphs (parseExpression initState.expression)) =
      Except.error "boom" ∧
    ((step evalBoom initState CalcAction.compute).result =
      [JsVal.str ("Error: " ++ "boom")] ∧
    (step evalBoom initState CalcAction.compute).result ≠ [] ∧
    (step evalBoom initState CalcAction.compute).resultIsError = true ∧
    (step evalBoom initState CalcAction.compute).needsReset = true ∧
    (step evalBoom initState CalcAction.compute).expression =
      initState.expression) :=
  ⟨rfl, evaluate_failure_state evalBoom initState "boom" rfl⟩

/-- C6: in every reachable state `needsReset` is true exactly when
`resultTokens` is non-empty; Evaluate always produces `needsReset = true`
with a non-empty result, and digit append, operator append, Backspace
and Clear always produce `needsReset = false` with an empty result. -/
theorem needsReset_iff_result_nonempty
    (evalFn : String → Except String String) (acts : List CalcAction)
    (s : CalcState) (n o : String) :
    ((run evalFn acts).needsReset = true ↔ (run evalFn acts).result ≠ []) ∧
    ((step evalFn s CalcAction.compute).needsReset = true ∧
      (step evalFn s CalcAction.compute).result ≠ []) ∧
    ((step evalFn s (CalcAction.num n)).needsReset = false ∧
      (step evalFn s (CalcAction.num n)).result = []) ∧
    ((step evalFn s (CalcAction.op o)).needsReset = false ∧
      (step evalFn s (CalcAction.op o)).result = []) ∧
    ((step evalFn s CalcAction.back).needsReset = false ∧
      (step evalFn s CalcAction.back).result = []) ∧
    ((step evalFn s CalcAction.clear).needsReset = false ∧
      (step evalFn s CalcAction.clear).result = []) := by
  refine ⟨?_, ?_, ?_, ?_, ?_, ?_⟩
  · exact run_preserve
      (fun t => (t.needsReset = true ↔ t.result ≠ [])) evalFn
      (step_needsReset_iff evalFn) (by simp [initState]) acts
  · have h := step_needsReset_iff evalFn s CalcAction.compute
    have hr : (step evalFn s CalcAction.compute).needsReset = true := by
      simp only [step, computeExpression]
      cases evalFn (translateGlyphs (parseExpression s.expression)) <;> simp
    exact ⟨hr, h.mp hr⟩
  · by_cases h : s.needsReset <;>
      simp [step, handleNumberInput, resetExpression, h]
  · by_cases h : s.needsReset <;>
      simp [step, handleOperationInput, resetExpression, h]
  · simp [step, backspace]
  · simp [step, clearInput]

/-- C4: `previousNonErrorResult` is written only by a successful
Evaluate, where it becomes the raw (untranslated, unwrapped) result
string; a failed Evaluate, Clear, Backspace and digit/operator appends
all leave it unchanged. -/
theorem lastGoodResult_frame (evalFn : String → Except String String)
    (s : CalcState) (a : CalcAction) :
    (step evalFn s a).previousNonErrorResult =
      (match a, evalFn (translateGlyphs (parseExpression s.expression)) with
       | CalcAction.compute, Except.ok v => some v
       | _, _ => s.previousNonErrorResult) := by
  cases a with
  | num n =>
      by_cases h : s.needsReset <;>
        simp [step, handleNumberInput, resetExpression, h]
  | op o =>
      by_cases h : s.needsReset <;>
        simp [step, handleOperationInput, resetExpression, h]
  | back => simp [step, backspace]
  | clear => simp [step, clearInput]
  | compute =>
      simp only [step, computeExpression]
      cases evalFn (translateGlyphs (parseExpression s.expression)) <;> simp

/-- C9 counterexample: after `1`, `+`, `=` under a throwing evaluator,
`resultTokens` is the one-element `["Error: boom"]`, which matches none
of the three shapes the spec claims (empty, `["=", d]`, or the
two-element `["Error: ", m]`). -/
theorem spec_result_shape_fails :
    ¬ specResultShape ((run evalBoom [CalcAction.num "1",
      CalcAction.op "+", CalcAction.compute]).result) := by
  intro h
  have e : (run evalBoom [CalcAction.num "1", CalcAction.op "+",
      CalcAction.compute]).result = [JsVal.str "Error: boom"] := rfl
  rw [e] at h
  rcases h with h | ⟨d, h⟩ | ⟨m, h⟩
  · simpa using congrArg List.length h
  · simpa using congrArg List.length h
  · simpa using congrArg List.length h

/-- C9 amended: in every reachable state `resultTokens` is empty, or the
two-element `["=", display]`, or the one-element `["Error: " ++ message]`
(the error prefix and the evaluator's message fused into a single
string). -/
theorem result_tokens_shapes (evalFn : String → Except String String)
    (acts : List CalcAction) :
    (run evalFn acts).result = [] ∨
      (∃ d, (run evalFn acts).result = [JsVal.str "=", JsVal.str d]) ∨
      (∃ m : String,
        (run evalFn acts).result = [JsVal.str ("Error: " ++ m)]) := by
  refine run_preserve (fun t => t.result = [] ∨
      (∃ d, t.result = [JsVal.str "=", JsVal.str d]) ∨
      (∃ m : String, t.result = [JsVal.str ("Error: " ++ m)]))
    evalFn ?_ (Or.inl rfl) acts
  intro s a
  exact step_result_shape evalFn s a

/-- C3 counterexample: after `1`, `+`, `=` fails with no prior success,
appending `+` produces `[undefined, "+"]`: the resumed left operand is
not a defined string, because `result[1]` fell off the end of the
one-element error payload. -/
theorem resume_claim_counterexample :
    ¬ ∃ rv : String, (run evalBoom [CalcAction.num "1", CalcAction.op "+",
      CalcAction.compute, CalcAction.op "+"]).expression =
      [JsVal.str rv, JsVal.str "+"] := by
  rintro ⟨rv, h⟩
  have e : (run evalBoom [CalcAction.num "1", CalcAction.op "+",
      CalcAction.compute, CalcAction.op "+"]).expression =
      [JsVal.undef, JsVal.str "+"] := rfl
  rw [e] at h
  exact JsVal.noConfusion (List.cons.injEq _ _ _ _ ▸ h).1

/-- C3 amended: in `Result` mode, appending `op` yields
`[resumeValue, op]` with empty result and `needsReset` cleared, where
`resumeValue` is `lastGoodResult` when set, else the second element of
the previous `resultTokens` when it has one, and otherwise the JS
`undefined` value (the index access does fall off the end of a
one-element error payload when no prior success exists). -/
theorem resume_value_characterization (s : CalcState) (op : String)
    (h : s.needsReset = true) :
    (handleOperationInput s op).result = [] ∧
    (handleOperationInput s op).needsReset = false ∧
    ((∃ r, s.previousNonErrorResult = some r ∧
        (handleOperationInput s op).expression =
          [JsVal.str r, JsVal.str op]) ∨
      (s.previousNonErrorResult = none ∧
        (∃ v, s.result.get? 1 = some v ∧
          (handleOperationInput s op).expression = [v, JsVal.str op])) ∨
      (s.previousNonErrorResult = none ∧ s.result.length ≤ 1 ∧
        (handleOperationInput s op).expression =
          [JsVal.undef, JsVal.str op])) := by
  refine ⟨by simp [handleOperationInput, resetExpression, h],
    by simp [handleOperationInput, resetExpression, h], ?_⟩
  cases hp : s.previousNonErrorResult with
  | some r =>
      exact Or.inl ⟨r, rfl, by simp [handleOperationInput,
        resetExpression, h, hp]⟩
  | none =>
      match hr : s.result with
      | [] =>
          exact Or.inr (Or.inr ⟨rfl, by simp [hr],
            by simp [handleOperationInput, resetExpression, h, hp, hr]⟩)
      | [x] =>
          exact Or.inr (Or.inr ⟨rfl, by simp [hr],
            by simp [handleOperationInput, resetExpression, h, hp, hr]⟩)
      | x :: y :: rest =>
          exact Or.inr (Or.inl ⟨rfl, ⟨y, by simp [hr],
            by simp [handleOperationInput, resetExpression, h, hp, hr]⟩⟩)

/-- C3 witness: the characterization applied to the concrete error state
reached by `1`, `+`, `=` under a throwing evaluator. -/
theorem resume_value_characterization_witness :
    errState.needsReset = true ∧
    ((handleOperationInput errState "+").result = [] ∧
    (handleOperationInput errState "+").needsReset = false ∧
    ((∃ r, errState.previousNonErrorResult = some r ∧
        (handleOperationInput errState "+").expression =
          [JsVal.str r, JsVal.str "+"]) ∨
      (errState.previousNonErrorResult = none ∧
        (∃ v, errState.result.get? 1 = some v ∧
          (handleOperationInput errState "+").expression =
            [v, JsVal.str "+"])) ∨
      (errState.previousNonErrorResult = none ∧ errState.result.length ≤ 1 ∧
        (handleOperationInput errState "+").expression =
          [JsVal.undef, JsVal.str "+"]))) :=
  ⟨rfl, resume_value_characterization errState "+" rfl⟩

/-- The post-processed display string for a successful result: the
`resultDisplay` local of `computeExpression`. -/
def displayOf (v : String) : String :=
  if containsAlpha v then "\\text\x7b" ++ v ++ "\x7d" else v

/-- Successful-evaluation equation for `computeExpression`, used to
reason symbolically about an oracle known only at one input. -/
lemma computeExpression_ok (evalFn : String → Except String String)
    (s : CalcState) (v : String)
    (h : evalFn (translateGlyphs (parseExpression s.expression)) =
      Except.ok v) :
    computeExpression evalFn s =
      { s with result := [JsVal.str "=", JsVal.str (displayOf v)],
               needsReset := true, previousNonErrorResult := some v } := by
  simp [computeExpression, displayOf, h]

/-- C5: under any evaluator mapping `2+2` to `4`, the sequence
`2`, `+`, `2`, `=` shows the result `4`, and a following `+` resumes
from `lastGoodResult`: tokens become `["4", "+"]` with an empty result
and `needsReset` cleared. -/
theorem resume_after_success (evalFn : String → Except String String)
    (h : evalFn "2+2" = Except.ok "4") :
    (run evalFn [CalcAction.num "2", CalcAction.op "+", CalcAction.num "2",
      CalcAction.compute]).result = [JsVal.str "=", JsVal.str "4"] ∧
    (run evalFn [CalcAction.num "2", CalcAction.op "+", CalcAction.num "2",
      CalcAction.compute, CalcAction.op "+"]).expression =
      [JsVal.str "4", JsVal.str "+"] ∧
    (run evalFn [CalcAction.num "2", CalcAction.op "+", CalcAction.num "2",
      CalcAction.compute, CalcAction.op "+"]).result = [] ∧
    (run evalFn [CalcAction.num "2", CalcAction.op "+", CalcAction.num "2",
      CalcAction.compute, CalcAction.op "+"]).needsReset = false := by
  have e2 : evalFn (translateGlyphs (parseExpression
      ([JsVal.str "2", JsVal.str "+", JsVal.str "2"] : List JsVal))) =
      Except.ok "4" := by
    have e : translateGlyphs (parseExpression
        ([JsVal.str "2", JsVal.str "+", JsVal.str "2"] : List JsVal)) =
        "2+2" := rfl
    rw [e]; exact h
  have h4 : run evalFn [CalcAction.num "2", CalcAction.op "+",
      CalcAction.num "2", CalcAction.compute] = computeExpression evalFn
      { expression := [JsVal.str "2", JsVal.str "+", JsVal.str "2"],
        result := [], needsReset := false, resultIsError := false,
        previousNonErrorResult := none } := rfl
  have hc := computeExpression_ok evalFn
    { expression := [JsVal.str "2", JsVal.str "+", JsVal.str "2"],
      result := [], needsReset := false, resultIsError := false,
      previousNonErrorResult := none } "4" e2
  have hca : containsAlpha "4" = false := rfl
  have h5 : run evalFn [CalcAction.num "2", CalcAction.op "+",
      CalcAction.num "2", CalcAction.compute, CalcAction.op "+"] =
      handleOperationInput (run evalFn [CalcAction.num "2",
        CalcAction.op "+", CalcAction.num "2", CalcAction.compute]) "+" :=
    rfl
  refine ⟨?_, ?_, ?_, ?_⟩
  · rw [h4, hc]; simp [displayOf, hca]
  · rw [h5, h4, hc]; simp [displayOf, hca, handleOperationInput,
      resetExpression]
  · rw [h5, h4, hc]; simp [displayOf, hca, handleOperationInput,
      resetExpression]
  · rw [h5, h4, hc]; simp [displayOf, hca, handleOperationInput,
      resetExpression]

/-- C5 witness: the resume theorem under the concrete oracle mapping
`2+2` to `4`. -/
theorem resume_after_success_witness :
    evalTwoPlusTwo "2+2" = Except.ok "4" ∧
    ((run evalTwoPlusTwo [CalcAction.num "2", CalcAction.op "+",
      CalcAction.num "2", CalcAction.compute]).result =
      [JsVal.str "=", JsVal.str "4"] ∧
    (run evalTwoPlusTwo [CalcAction.num "2", CalcAction.op "+",
      CalcAction.num "2", CalcAction.compute, CalcAction.op "+"]).expression =
      [JsVal.str "4", JsVal.str "+"] ∧
    (run evalTwoPlusTwo [CalcAction.num "2", CalcAction.op "+",
      CalcAction.num "2", CalcAction.compute, CalcAction.op "+"]).result =
      [] ∧
    (run evalTwoPlusTwo [CalcAction.num "2", CalcAction.op "+",
      CalcAction.num "2", CalcAction.compute,
      CalcAction.op "+"]).needsReset = false) :=
  ⟨rfl, resume_after_success evalTwoPlusTwo rfl⟩

/-- C7: the string handed to the evaluator is the separator-free
concatenation of `tokens` with exactly the characters `×` and `÷`
rewritten to `*` and `/` (first part: the translation is the pointwise
character map `trChar`); and the Evaluate step depends on the evaluator
only through its value at exactly that translated string (second part:
two evaluators agreeing there produce identical post-states). -/
theorem glyph_translation_exact :
    (∀ s : String, (translateGlyphs s).data = s.data.map trChar) ∧
    (∀ (evalFn evalFn' : String → Except String String) (s : CalcState),
      evalFn (translateGlyphs (parseExpression s.expression)) =
        evalFn' (translateGlyphs (parseExpression s.expression)) →
      step evalFn s CalcAction.compute =
        step evalFn' s CalcAction.compute) := by
  constructor
  · intro s
    have e : (translateGlyphs s).data =
        (s.data.map (fun c => if c = '×' then '*' else c)).map
          (fun c => if c = '÷' then '/' else c) := rfl
    rw [e, List.map_map]
    refine List.map_congr_left ?_
    intro a _
    by_cases h1 : a = '×'
    · subst h1; rfl
    · by_cases h2 : a = '÷'
      · subst h2; rfl
      · simp [Function.comp, trChar, h1, h2]
  · intro evalFn evalFn' s h
    simp only [step, computeExpression]
    rw [h]

/-- C7 witness: two different oracles agreeing on the translated empty
expression give the same Evaluate outcome on the initial state. -/
theorem glyph_translation_exact_witness :
    (fun t => if t = "" then Except.error "A" else Except.ok "left")
      (translateGlyphs (parseExpression initState.expression)) =
    (fun t => if t = "" then Except.error "A" else Except.ok "right")
      (translateGlyphs (parseExpression initState.expression)) ∧
    step (fun t => if t = "" then Except.error "A" else Except.ok "left")
      initState CalcAction.compute =
    step (fun t => if t = "" then Except.error "A" else Except.ok "right")
      initState CalcAction.compute :=
  ⟨rfl, glyph_translation_exact.2
    (fun t => if t = "" then Except.error "A" else Except.ok "left")
    (fun t => if t = "" then Except.error "A" else Except.ok "right")
    initState rfl⟩

/-- Folding only append actions over a non-`Result` state appends the
corresponding string tokens in order and keeps `needsReset` false. -/
lemma append_run (evalFn : String → Except String String) :
    ∀ (acts : List CalcAction) (s : CalcState),
      (∀ a ∈ acts, isAppend a = true) → s.needsReset = false →
      (acts.foldl (step evalFn) s).expression =
        s.expression ++ acts.map (fun a => JsVal.str (inputStr a)) ∧
      (acts.foldl (step evalFn) s).needsReset = false := by
  intro acts
  induction acts with
  | nil => intro s _ hnr; simp [hnr]
  | cons a l ih =>
      intro s hall hnr
      have ha : isAppend a = true := hall a (List.mem_cons_self a l)
      have hl : ∀ b ∈ l, isAppend b = true :=
        fun b hb => hall b (List.mem_cons_of_mem a hb)
      cases a with
      | num n =>
          have hs : step evalFn s (CalcAction.num n) =
              { s with expression := s.expression ++ [JsVal.str n],
                       result := [], needsReset := false } := by
            simp [step, handleNumberInput, hnr]
          have ht := ih { s with expression := s.expression ++ [JsVal.str n],
                                 result := [], needsReset := false } hl rfl
          rw [List.foldl_cons, hs]
          exact ⟨by rw [ht.1]; simp [inputStr], ht.2⟩
      | op o =>
          have hs : step evalFn s (CalcAction.op o) =
              { s with expression := s.expression ++ [JsVal.str o],
                       result := [], needsReset := false } := by
            simp [step, handleOperationInput, hnr]
          have ht := ih { s with expression := s.expression ++ [JsVal.str o],
                                 result := [], needsReset := false } hl rfl
          rw [List.foldl_cons, hs]
          exact ⟨by rw [ht.1]; simp [inputStr], ht.2⟩
      | back => simp [isAppend] at ha
      | clear => simp [isAppend] at ha
      | compute => simp [isAppend] at ha

/-- C8: any sequence of digit/operator appends from the empty session,
with no Evaluate, displays exactly the concatenation of the inputs in
entry order. -/
theorem append_only_concat (evalFn : String → Except String String)
    (acts : List CalcAction) (h : ∀ a ∈ acts, isAppend a = true) :
    parseExpression (run evalFn acts).expression =
      String.join (acts.map inputStr) := by
  obtain ⟨he, _⟩ := append_run evalFn acts initState h rfl
  show parseExpression ((acts.foldl (step evalFn) initState).expression) =
    String.join (acts.map inputStr)
  rw [he]
  simp only [initState, List.nil_append, parseExpression, List.map_map]
  congr 1

/-- C8 witness: the concatenation theorem at the inputs `1`, `+`, `2`. -/
theorem append_only_concat_witness :
    (∀ a ∈ [CalcAction.num "1", CalcAction.op "+", CalcAction.num "2"],
      isAppend a = true) ∧
    parseExpression (run evalBoom [CalcAction.num "1", CalcAction.op "+",
      CalcAction.num "2"]).expression =
      String.join ([CalcAction.num "1", CalcAction.op "+",
        CalcAction.num "2"].map inputStr) :=
  ⟨by decide, append_only_concat evalBoom
    [CalcAction.num "1", CalcAction.op "+", CalcAction.num "2"]
    (by decide)⟩

/-- C10: the keypad parenthesis buttons dispatch to the operator
handler while the keyboard shift-parenthesis keys dispatch to the digit
handler; consequently, from a `Result` state with last result `4`,
clicking `(` yields `["4", "("]` but typing `(` yields `["("]`. -/
theorem paren_input_inconsistency :
    buttonAction "(" = some (CalcAction.op "(") ∧
    buttonAction ")" = some (CalcAction.op ")") ∧
    keyAction true "(" = some (CalcAction.num "(") ∧
    keyAction true ")" = some (CalcAction.num ")") ∧
    (step evalBoom successState (CalcAction.op "(")).expression =
      [JsVal.str "4", JsVal.str "("] ∧
    (step evalBoom successState (CalcAction.num "(")).expression =
      [JsVal.str "("] := by
  refine ⟨by decide, by decide, by decide, by decide, by decide, by decide⟩
